import Mathlib

/-!
Shallow embedding of the Smart Farming Advisory backend (Express server):
the `POST /api/recommend` handler, its `loadRules` table loader, and the
response shapes it produces.  JSON/JavaScript values appearing in request
bodies are modelled by `YFF.JSV` (arrays are omitted: no behaviour of the
handler distinguishes an array body or field from any other non-object,
non-string value beyond `String(...)` coercion, which no rule data uses).
Machine-level concerns (HTTP transport, Express routing) are out of scope;
the handler is modelled as a total function from the parsed request body
and the current state of the rules file to the JSON response.
-/

namespace YFF

/-- A JavaScript/JSON value as seen by the handler: `undefined`, `null`,
booleans, numbers (JSON integers), strings, and plain objects. -/
inductive JSV where
  | undefined
  | null
  | bool (b : Bool)
  | num (n : Int)
  | str (s : String)
  | obj (fields : List (String × JSV))

/-- JavaScript truthiness: `undefined`, `null`, `false`, `0` and `""` are
falsy; everything else is truthy. -/
def jsTruthy : JSV → Bool
  | .undefined => false
  | .null => false
  | .bool b => b
  | .num n => !(n == 0)
  | .str s => !(s == "")
  | .obj _ => true

/-- JavaScript `String(v)` coercion for the modelled values. -/
def jsToString : JSV → String
  | .undefined => "undefined"
  | .null => "null"
  | .bool b => if b then "true" else "false"
  | .num n => toString n
  | .str s => s
  | .obj _ => "[object Object]"

/-- The `.toLowerCase()` of the handler, modelled character-wise with the
ASCII mapping `Char.toLower` (the same mapping `String.toLower` applies),
written structurally over the character list so that it evaluates. -/
def toLowerStr (s : String) : String := ⟨s.data.map Char.toLower⟩

/-- Property access `v[k]`: field lookup on objects, `undefined` otherwise
(matching JS property access on primitives after boxing). -/
def getProp (v : JSV) (k : String) : JSV :=
  match v with
  | .obj fields =>
    match fields.find? (fun p => p.fst == k) with
    | some p => p.snd
    | none => .undefined
  | _ => .undefined

/-- The destructuring `const { ... } = req.body || {}` followed by field
access: a falsy body is replaced by the empty object first. -/
def bodyProp (reqBody : JSV) (k : String) : JSV :=
  getProp (if jsTruthy reqBody then reqBody else .obj []) k

/-- One entry of `rules.json`: `soil`, `crop`, `sowingTime`, `irrigation`,
`fertilizer`, and an optional `notes` (`none` models an absent or `null`
notes field). -/
structure Rule where
  soil : String
  crop : String
  sowingTime : String
  irrigation : String
  fertilizer : String
  notes : Option String
deriving DecidableEq

/-- The parsed shape of `rules.json`: a `rules` field that may be absent or
`null` (`none`), or a list of rules. -/
structure RulesData where
  rules : Option (List Rule)
deriving DecidableEq

/-- `loadRules()`: reads and parses `rules.json`; on any read/parse failure
(the `none` file state) it logs and returns `{ rules: [] }`. -/
def loadRules : Option RulesData → RulesData
  | some d => d
  | none => { rules := some [] }

/-- The nested `recommendation` object of a successful response. -/
structure Recommendation where
  sowingTime : String
  irrigation : String
  fertilizer : String
  notes : Option String
deriving DecidableEq

/-- The body of a successful response.  `region` is a `JSV` because the
handler echoes whatever truthy value the request carried. -/
structure RecBody where
  soilType : String
  crop : String
  region : JSV
  recommendation : Recommendation

/-- The handler's response: a 400 with an `error` field, or a 200 body. -/
inductive Response where
  | badRequest (error : String)
  | ok (body : RecBody)

/-- Whether a response is the validation-error (HTTP 400) response. -/
def Response.isError : Response → Bool
  | .badRequest _ => true
  | .ok _ => false

/-- The 400 message of the handler. -/
def missingFieldsError : String := "Missing required fields: soilType and crop"

/-- The hardcoded generic fallback recommendation of the no-match branch. -/
def fallbackRec : Recommendation :=
  { sowingTime := "Consult local agri-extension for optimal window"
  , irrigation := "1-2 times/week depending on rainfall"
  , fertilizer := "Balanced NPK (e.g., 10-26-26) at recommended doses"
  , notes := some "No exact match found. Displaying generic guidance." }

/-- The predicate of the `find` call:
`r.soil === normalizedSoil && r.crop === normalizedCrop`. -/
def ruleMatches (normalizedSoil normalizedCrop : String) (r : Rule) : Bool :=
  r.soil == normalizedSoil && r.crop == normalizedCrop

/-- `match.notes || null`: a falsy notes value (absent, `null`, or the
empty string) becomes `null`. -/
def notesOut : Option String → Option String
  | some s => if s == "" then none else some s
  | none => none

/-- `region: region || ''`: a falsy region becomes the empty string. -/
def regionOut (region : JSV) : JSV :=
  if jsTruthy region then region else .str ""

/-- The `POST /api/recommend` handler, as a function of the parsed request
body and the current state of the rules file (`none` = unreadable or
unparsable).  Mirrors the source line by line: destructure `req.body || {}`,
validate truthiness of `soilType` and `crop`, call `loadRules()`, lowercase
the query fields, `find` the first matching rule, and build either the
fallback or the matched response. -/
def handleRecommend (reqBody : JSV) (file : Option RulesData) : Response :=
  let soilType := bodyProp reqBody "soilType"
  let crop := bodyProp reqBody "crop"
  let region := bodyProp reqBody "region"
  if !jsTruthy soilType || !jsTruthy crop then
    .badRequest missingFieldsError
  else
    let data := loadRules file
    let normalizedSoil := toLowerStr (jsToString soilType)
    let normalizedCrop := toLowerStr (jsToString crop)
    match (data.rules.getD []).find? (ruleMatches normalizedSoil normalizedCrop) with
    | none =>
      .ok { soilType := normalizedSoil
          , crop := normalizedCrop
          , region := regionOut region
          , recommendation := fallbackRec }
    | some m =>
      .ok { soilType := normalizedSoil
          , crop := normalizedCrop
          , region := regionOut region
          , recommendation :=
            { sowingTime := m.sowingTime
            , irrigation := m.irrigation
            , fertilizer := m.fertilizer
            , notes := notesOut m.notes } }

/-- A request body built from plain strings, as the advisory front end
sends it: `soilType` and `crop` always present, `region` optional. -/
def mkBody (soil crop : String) (region : Option String) : JSV :=
  .obj (("soilType", JSV.str soil) :: ("crop", JSV.str crop) ::
    (match region with
     | some s => [("region", JSV.str s)]
     | none => []))

/-- A sequence of requests served by the process: each request sees the
state of the rules file at the moment it is handled (the handler calls
`loadRules()` per request). -/
def serve (requests : List (JSV × Option RulesData)) : List Response :=
  requests.map (fun rq => handleRecommend rq.fst rq.snd)

/-- The recommendation object built from a matched rule. -/
def recOf (m : Rule) : Recommendation :=
  { sowingTime := m.sowingTime
  , irrigation := m.irrigation
  , fertilizer := m.fertilizer
  , notes := notesOut m.notes }

/-- The post-validation tail of the handler, as a function of the already
normalized soil and crop, the (raw) region field, and the rule list. -/
def afterValidation (normalizedSoil normalizedCrop : String) (region : JSV)
    (rules : List Rule) : Response :=
  match rules.find? (ruleMatches normalizedSoil normalizedCrop) with
  | none =>
    .ok { soilType := normalizedSoil
        , crop := normalizedCrop
        , region := regionOut region
        , recommendation := fallbackRec }
  | some m =>
    .ok { soilType := normalizedSoil
        , crop := normalizedCrop
        , region := regionOut region
        , recommendation := recOf m }

/-- A canonical lowercase-keyed rule, as the shipped `rules.json` stores
them (the clay/rice entry of the spec's worked example). -/
def demoRule : Rule :=
  { soil := "clay", crop := "rice", sowingTime := "June"
  , irrigation := "Daily", fertilizer := "Urea", notes := none }

/-- A rule whose `soil` is stored with a capital letter, for probing how
the lookup treats non-lowercase table keys. -/
def cexRule : Rule :=
  { soil := "Clay", crop := "rice", sowingTime := "June"
  , irrigation := "Daily", fertilizer := "Urea", notes := none }

/-- A second rule for the same (clay, rice) pair with different advisory
text, for probing duplicate-key resolution. -/
def dupRule : Rule :=
  { soil := "clay", crop := "rice", sowingTime := "July"
  , irrigation := "Weekly", fertilizer := "DAP", notes := some "duplicate" }

/-- The clay/rice rule with an empty-string `notes` field. -/
def emptyNotesRule : Rule :=
  { soil := "clay", crop := "rice", sowingTime := "June"
  , irrigation := "Daily", fertilizer := "Urea", notes := some "" }

/-- Field extraction on a string-built body: `soilType`. -/
theorem bodyProp_mkBody_soilType (soil crop : String) (reg : Option String) :
    bodyProp (mkBody soil crop reg) "soilType" = .str soil := rfl

/-- Field extraction on a string-built body: `crop`. -/
theorem bodyProp_mkBody_crop (soil crop : String) (reg : Option String) :
    bodyProp (mkBody soil crop reg) "crop" = .str crop := rfl

/-- Field extraction on a string-built body: `region` is the string when
supplied and `undefined` when omitted. -/
theorem bodyProp_mkBody_region (soil crop : String) (reg : Option String) :
    bodyProp (mkBody soil crop reg) "region" =
      (match reg with | some s => JSV.str s | none => JSV.undefined) := by
  cases reg <;> rfl

/-- On an optional-string region field, `region || ''` yields the string
when supplied and the empty string when omitted. -/
theorem regionOut_opt (reg : Option String) :
    regionOut (match reg with | some s => JSV.str s | none => JSV.undefined) =
      .str (reg.getD "") := by
  cases reg with
  | none => rfl
  | some s =>
    by_cases h : s = "" <;> simp [regionOut, jsTruthy, h]

/-- On a body with non-empty `soilType` and `crop` strings the handler
passes validation and runs its post-validation tail. -/
theorem handleRecommend_mkBody (soil crop : String) (reg : Option String)
    (f : Option RulesData) (hs : soil ≠ "") (hc : crop ≠ "") :
    handleRecommend (mkBody soil crop reg) f =
      afterValidation (toLowerStr soil) (toLowerStr crop)
        (match reg with | some s => JSV.str s | none => JSV.undefined)
        ((loadRules f).rules.getD []) := by
  have hts : jsTruthy (JSV.str soil) = true := by simp [jsTruthy, hs]
  have htc : jsTruthy (JSV.str crop) = true := by simp [jsTruthy, hc]
  simp only [handleRecommend, afterValidation, recOf, bodyProp_mkBody_soilType,
    bodyProp_mkBody_crop, bodyProp_mkBody_region, hts, htc, jsToString,
    Bool.not_true, Bool.or_self]
  rfl

/-- Reduction of the handler on a valid string query: the response is
determined by the first rule matching the lowercased pair, with the
fallback recommendation when none does. -/
theorem handleRecommend_valid (soil crop : String) (reg : Option String)
    (f : Option RulesData) (hs : soil ≠ "") (hc : crop ≠ "") :
    handleRecommend (mkBody soil crop reg) f =
      (match ((loadRules f).rules.getD []).find?
          (ruleMatches (toLowerStr soil) (toLowerStr crop)) with
       | none =>
         .ok { soilType := toLowerStr soil, crop := toLowerStr crop
             , region := .str (reg.getD ""), recommendation := fallbackRec }
       | some m =>
         .ok { soilType := toLowerStr soil, crop := toLowerStr crop
             , region := .str (reg.getD ""), recommendation := recOf m }) := by
  rw [handleRecommend_mkBody soil crop reg f hs hc]
  unfold afterValidation
  cases ((loadRules f).rules.getD []).find?
      (ruleMatches (toLowerStr soil) (toLowerStr crop)) <;>
    simp [regionOut_opt]

/-- A falsy `soilType` or `crop` field makes the handler return the 400
response immediately. -/
theorem handleRecommend_invalid (body : JSV) (f : Option RulesData)
    (h : jsTruthy (bodyProp body "soilType") = false ∨
         jsTruthy (bodyProp body "crop") = false) :
    handleRecommend body f = .badRequest missingFieldsError := by
  unfold handleRecommend
  rcases h with h | h <;> simp [h]

/-- A body that is not an object has no fields: every field reads back as
`undefined` (a falsy body is first replaced by the empty object). -/
theorem bodyProp_of_not_obj (body : JSV) (k : String)
    (h : ∀ fs, body ≠ JSV.obj fs) :
    bodyProp body k = .undefined := by
  cases body with
  | obj fs => exact absurd rfl (h fs)
  | undefined => rfl
  | null => rfl
  | bool b => cases b <;> rfl
  | num n => by_cases hn : n = 0 <;> simp [bodyProp, getProp, jsTruthy, hn]
  | str s => by_cases hs : s = "" <;> simp [bodyProp, getProp, jsTruthy, hs]

/-- C1, counterexample: the claim fails as stated.  The table stores a rule
keyed `Clay`/`rice`; the query `Clay`/`rice` is present in the table
case-insensitively (both sides agree after lowercasing), yet the handler
returns the generic fallback rather than the stored `sowingTime` — only
the query is lowercased, the table field `Clay` is compared verbatim. -/
theorem C1_counterexample :
    (toLowerStr "Clay" = toLowerStr cexRule.soil ∧
     toLowerStr "rice" = toLowerStr cexRule.crop) ∧
    handleRecommend (mkBody "Clay" "rice" none) (some { rules := some [cexRule] }) =
      Response.ok { soilType := "clay", crop := "rice", region := JSV.str ""
                  , recommendation := fallbackRec } ∧
    fallbackRec.sowingTime ≠ cexRule.sowingTime :=
  ⟨⟨rfl, rfl⟩, rfl, by decide⟩

/-- C1 (amended): for every rule table and every query whose lowercased
(soilType, crop) pair coincides with the verbatim `soil`/`crop` fields of
some rule (in particular whenever the table stores these fields in
lowercase, as the shipped table does), the handler returns the stored
`sowingTime`/`irrigation`/`fertilizer` of the first such rule, regardless
of the casing of the query: only the query is lowercased before the
equality comparison, the table fields are compared verbatim. -/
theorem C1_lookup_lowercases_query_only (rs : List Rule) (soil crop : String)
    (reg : Option String) (hs : soil ≠ "") (hc : crop ≠ "")
    (hmem : ∃ r ∈ rs, r.soil = toLowerStr soil ∧ r.crop = toLowerStr crop) :
    ∃ r, rs.find? (ruleMatches (toLowerStr soil) (toLowerStr crop)) = some r ∧
      r.soil = toLowerStr soil ∧ r.crop = toLowerStr crop ∧
      handleRecommend (mkBody soil crop reg) (some { rules := some rs }) =
        Response.ok { soilType := toLowerStr soil, crop := toLowerStr crop
                    , region := .str (reg.getD ""), recommendation := recOf r } := by
  have hsome : (rs.find? (ruleMatches (toLowerStr soil) (toLowerStr crop))).isSome := by
    rw [List.find?_isSome]
    obtain ⟨r, hr, h1, h2⟩ := hmem
    exact ⟨r, hr, by simp [ruleMatches, h1, h2]⟩
  obtain ⟨r, hr⟩ := Option.isSome_iff_exists.mp hsome
  have hp := List.find?_some hr
  simp only [ruleMatches, Bool.and_eq_true, beq_iff_eq] at hp
  refine ⟨r, hr, hp.1, hp.2, ?_⟩
  rw [handleRecommend_valid soil crop reg _ hs hc]
  simp [loadRules, hr]

/-- C1, witness: a concrete table keyed lowercase and an upper-cased
query reach the amended theorem's conclusion. -/
theorem C1_witness :
    ∃ r, [demoRule].find? (ruleMatches (toLowerStr "CLAY") (toLowerStr "Rice")) = some r ∧
      r.soil = toLowerStr "CLAY" ∧ r.crop = toLowerStr "Rice" ∧
      handleRecommend (mkBody "CLAY" "Rice" (some "Punjab"))
          (some { rules := some [demoRule] }) =
        Response.ok { soilType := toLowerStr "CLAY", crop := toLowerStr "Rice"
                    , region := .str ((some "Punjab").getD "")
                    , recommendation := recOf r } :=
  C1_lookup_lowercases_query_only [demoRule] "CLAY" "Rice" (some "Punjab")
    (by decide) (by decide) ⟨demoRule, by simp, by decide, by decide⟩

/-- C2: on every valid string query — whether a rule matches or the
fallback fires — the response carries the lowercased soil and crop and
the original region (empty when omitted); whenever a rule matches and has
no notes, its three fields are copied verbatim with notes null; and the
spec's worked example evaluates to exactly the promised object. -/
theorem C2_response_shape (rs : List Rule) (soil crop : String) (reg : Option String)
    (hs : soil ≠ "") (hc : crop ≠ "") :
    (∃ b, handleRecommend (mkBody soil crop reg) (some { rules := some rs }) =
        Response.ok b ∧
      b.soilType = toLowerStr soil ∧ b.crop = toLowerStr crop ∧
      b.region = .str (reg.getD "")) ∧
    (∀ r, rs.find? (ruleMatches (toLowerStr soil) (toLowerStr crop)) = some r →
      r.notes = none →
      handleRecommend (mkBody soil crop reg) (some { rules := some rs }) =
        Response.ok { soilType := toLowerStr soil, crop := toLowerStr crop
                    , region := .str (reg.getD "")
                    , recommendation :=
                      { sowingTime := r.sowingTime, irrigation := r.irrigation
                      , fertilizer := r.fertilizer, notes := none } }) ∧
    handleRecommend (mkBody "Clay" "RICE" (some "Punjab"))
        (some { rules := some [demoRule] }) =
      Response.ok { soilType := "clay", crop := "rice", region := .str "Punjab"
                  , recommendation :=
                    { sowingTime := "June", irrigation := "Daily"
                    , fertilizer := "Urea", notes := none } } := by
  refine ⟨?_, ?_, rfl⟩
  · rcases hf : rs.find? (ruleMatches (toLowerStr soil) (toLowerStr crop)) with _ | m
    · have h1 : handleRecommend (mkBody soil crop reg) (some { rules := some rs }) =
          Response.ok { soilType := toLowerStr soil, crop := toLowerStr crop
                      , region := .str (reg.getD "")
                      , recommendation := fallbackRec } := by
        rw [handleRecommend_valid soil crop reg _ hs hc]
        simp [loadRules, hf]
      exact ⟨_, h1, rfl, rfl, rfl⟩
    · have h1 : handleRecommend (mkBody soil crop reg) (some { rules := some rs }) =
          Response.ok { soilType := toLowerStr soil, crop := toLowerStr crop
                      , region := .str (reg.getD "")
                      , recommendation := recOf m } := by
        rw [handleRecommend_valid soil crop reg _ hs hc]
        simp [loadRules, hf]
      exact ⟨_, h1, rfl, rfl, rfl⟩
  · intro r hfind hnotes
    rw [handleRecommend_valid soil crop reg _ hs hc]
    simp [loadRules, hfind, recOf, notesOut, hnotes]

/-- C2, witness: the worked example instantiates every hypothesis, the
matched-rule conjunct being taken at the clay/rice rule itself. -/
theorem C2_witness :
    (∃ b, handleRecommend (mkBody "Clay" "RICE" (some "Punjab"))
        (some { rules := some [demoRule] }) = Response.ok b ∧
      b.soilType = toLowerStr "Clay" ∧ b.crop = toLowerStr "RICE" ∧
      b.region = .str ((some "Punjab").getD "")) ∧
    handleRecommend (mkBody "Clay" "RICE" (some "Punjab"))
        (some { rules := some [demoRule] }) =
      Response.ok { soilType := toLowerStr "Clay", crop := toLowerStr "RICE"
                  , region := .str ((some "Punjab").getD "")
                  , recommendation :=
                    { sowingTime := demoRule.sowingTime
                    , irrigation := demoRule.irrigation
                    , fertilizer := demoRule.fertilizer, notes := none } } ∧
    handleRecommend (mkBody "Clay" "RICE" (some "Punjab"))
        (some { rules := some [demoRule] }) =
      Response.ok { soilType := "clay", crop := "rice", region := .str "Punjab"
                  , recommendation :=
                    { sowingTime := "June", irrigation := "Daily"
                    , fertilizer := "Urea", notes := none } } := by
  have h := C2_response_shape [demoRule] "Clay" "RICE" (some "Punjab")
    (by decide) (by decide)
  exact ⟨h.1, h.2.1 demoRule (by decide) rfl, h.2.2⟩

/-- C3: a request whose soilType or crop field is missing or the empty
string gets the 400 validation response, and that response is independent
of the rule table (no lookup is consulted); a request with both fields
non-empty strings never gets the validation response (region optional). -/
theorem C3_validation (body : JSV) (f g : Option RulesData)
    (soil2 crop2 : String) (reg2 : Option String) (f2 : Option RulesData)
    (hmiss : bodyProp body "soilType" = .undefined ∨ bodyProp body "soilType" = .str "" ∨
             bodyProp body "crop" = .undefined ∨ bodyProp body "crop" = .str "")
    (hs : soil2 ≠ "") (hc : crop2 ≠ "") :
    (handleRecommend body f = .badRequest missingFieldsError ∧
     handleRecommend body f = handleRecommend body g) ∧
    (handleRecommend (mkBody soil2 crop2 reg2) f2).isError = false := by
  have hfalsy : jsTruthy (bodyProp body "soilType") = false ∨
      jsTruthy (bodyProp body "crop") = false := by
    rcases hmiss with h | h | h | h <;> rw [h] <;> simp [jsTruthy]
  have h400 : ∀ f3, handleRecommend body f3 = .badRequest missingFieldsError :=
    fun f3 => handleRecommend_invalid body f3 hfalsy
  refine ⟨⟨h400 f, (h400 f).trans (h400 g).symm⟩, ?_⟩
  rw [handleRecommend_valid soil2 crop2 reg2 f2 hs hc]
  cases ((loadRules f2).rules.getD []).find?
      (ruleMatches (toLowerStr soil2) (toLowerStr crop2)) <;>
    simp [Response.isError]

/-- C3, witness: an empty body gets the 400 whatever the table holds, and
the sandy/maize query passes validation. -/
theorem C3_witness :
    (handleRecommend (JSV.obj []) (some { rules := some [demoRule] }) =
       .badRequest missingFieldsError ∧
     handleRecommend (JSV.obj []) (some { rules := some [demoRule] }) =
       handleRecommend (JSV.obj []) none) ∧
    (handleRecommend (mkBody "sandy" "maize" none)
      (some { rules := some [demoRule] })).isError = false :=
  C3_validation (JSV.obj []) (some { rules := some [demoRule] }) none
    "sandy" "maize" none (some { rules := some [demoRule] })
    (Or.inl rfl) (by decide) (by decide)

/-- C4: a valid query matching no rule gets the single hardcoded generic
fallback payload, whose notes value flags that no exact match was found. -/
theorem C4_generic_fallback (rs : List Rule) (soil crop : String) (reg : Option String)
    (hs : soil ≠ "") (hc : crop ≠ "")
    (habs : ∀ r ∈ rs, ¬(r.soil = toLowerStr soil ∧ r.crop = toLowerStr crop)) :
    handleRecommend (mkBody soil crop reg) (some { rules := some rs }) =
      Response.ok { soilType := toLowerStr soil, crop := toLowerStr crop
                  , region := .str (reg.getD ""), recommendation := fallbackRec } ∧
    fallbackRec.notes = some "No exact match found. Displaying generic guidance." := by
  have hnone : rs.find? (ruleMatches (toLowerStr soil) (toLowerStr crop)) = none :=
    List.find?_eq_none.mpr (fun r hr => by simpa [ruleMatches] using habs r hr)
  refine ⟨?_, rfl⟩
  rw [handleRecommend_valid soil crop reg _ hs hc]
  simp [loadRules, hnone]

/-- C4, witness: the spec's sandy/maize example against the clay/rice
table falls through to the generic payload with empty region. -/
theorem C4_witness :
    handleRecommend (mkBody "sandy" "maize" none) (some { rules := some [demoRule] }) =
      Response.ok { soilType := toLowerStr "sandy", crop := toLowerStr "maize"
                  , region := .str ((none : Option String).getD "")
                  , recommendation := fallbackRec } ∧
    fallbackRec.notes = some "No exact match found. Displaying generic guidance." :=
  C4_generic_fallback [demoRule] "sandy" "maize" none (by decide) (by decide) (by decide)

/-- C5: with duplicate rules for the same (soil, crop) pair, the handler
deterministically answers from the first matching rule in table order:
any matching rule preceded only by non-matching rules is the one used,
whatever duplicates follow it. -/
theorem C5_first_match_wins (pre post2 : List Rule) (r : Rule)
    (soil crop : String) (reg : Option String) (hs : soil ≠ "") (hc : crop ≠ "")
    (hr : r.soil = toLowerStr soil ∧ r.crop = toLowerStr crop)
    (hpre : ∀ r2 ∈ pre, ¬(r2.soil = toLowerStr soil ∧ r2.crop = toLowerStr crop)) :
    handleRecommend (mkBody soil crop reg)
        (some { rules := some (pre ++ r :: post2) }) =
      Response.ok { soilType := toLowerStr soil, crop := toLowerStr crop
                  , region := .str (reg.getD ""), recommendation := recOf r } := by
  have h1 : pre.find? (ruleMatches (toLowerStr soil) (toLowerStr crop)) = none :=
    List.find?_eq_none.mpr (fun r2 h2 => by simpa [ruleMatches] using hpre r2 h2)
  have h2 : (r :: post2).find? (ruleMatches (toLowerStr soil) (toLowerStr crop)) =
      some r :=
    List.find?_cons_of_pos _ (by simp [ruleMatches, hr.1, hr.2])
  have hfind : (pre ++ r :: post2).find?
      (ruleMatches (toLowerStr soil) (toLowerStr crop)) = some r := by
    rw [List.find?_append, h1, h2]
    rfl
  rw [handleRecommend_valid soil crop reg _ hs hc]
  simp [loadRules, hfind]

/-- C5, witness: the table holds two clay/rice rules; the response is
built from the first one. -/
theorem C5_witness :
    handleRecommend (mkBody "Clay" "rice" none)
        (some { rules := some ([] ++ demoRule :: [dupRule]) }) =
      Response.ok { soilType := toLowerStr "Clay", crop := toLowerStr "rice"
                  , region := .str ((none : Option String).getD "")
                  , recommendation := recOf demoRule } :=
  C5_first_match_wins [] [dupRule] demoRule "Clay" "rice" none
    (by decide) (by decide) (by decide) (by decide)

/-- C6: when the rules file is unreadable or unparsable, loadRules yields
the empty table and every valid query gets the generic fallback response;
the handler still returns normally. -/
theorem C6_degrades_to_empty_table (soil crop : String) (reg : Option String)
    (hs : soil ≠ "") (hc : crop ≠ "") :
    loadRules none = { rules := some [] } ∧
    handleRecommend (mkBody soil crop reg) none =
      Response.ok { soilType := toLowerStr soil, crop := toLowerStr crop
                  , region := .str (reg.getD ""), recommendation := fallbackRec } := by
  refine ⟨rfl, ?_⟩
  rw [handleRecommend_valid soil crop reg none hs hc]
  simp [loadRules]

/-- C6, witness: a concrete valid query against the failed-load state. -/
theorem C6_witness :
    loadRules none = { rules := some [] } ∧
    handleRecommend (mkBody "clay" "rice" (some "Punjab")) none =
      Response.ok { soilType := toLowerStr "clay", crop := toLowerStr "rice"
                  , region := .str ((some "Punjab").getD "")
                  , recommendation := fallbackRec } :=
  C6_degrades_to_empty_table "clay" "rice" (some "Punjab") (by decide) (by decide)

/-- C7, counterexample: the table is not loaded once — the handler calls
loadRules inside the request path, so two identical queries in one process
observe different rules-file states and produce different responses,
which is impossible for a pure function of the query and a table loaded
one time. -/
theorem C7_counterexample :
    serve [(mkBody "clay" "rice" none, some { rules := some [demoRule] }),
           (mkBody "clay" "rice" none, none)] =
      [Response.ok { soilType := "clay", crop := "rice", region := .str ""
                   , recommendation := recOf demoRule },
       Response.ok { soilType := "clay", crop := "rice", region := .str ""
                   , recommendation := fallbackRec }] ∧
    recOf demoRule ≠ fallbackRec :=
  ⟨rfl, by decide⟩

/-- C7 (amended): resolution is a pure, deterministic function of the
query and the rules-file contents at request time — the response depends
on the file only through the table loadRules returns — but the file is
re-read on every request (loadRules runs inside the handler), rather than
being loaded once. -/
theorem C7_pure_in_query_and_table (body : JSV) (f g : Option RulesData)
    (h : loadRules f = loadRules g) :
    handleRecommend body f = handleRecommend body g := by
  simp only [handleRecommend, h]

/-- C7, witness: the failed-load state and an explicit empty table load to
the same table, hence answer identically. -/
theorem C7_witness :
    handleRecommend (mkBody "clay" "rice" none) none =
      handleRecommend (mkBody "clay" "rice" none) (some { rules := some [] }) :=
  C7_pure_in_query_and_table (mkBody "clay" "rice" none) none
    (some { rules := some [] }) rfl

/-- C8: serving the same query twice against the same rules-file state
yields identical responses — the resolver is deterministic and idempotent
over repeated identical queries and an unchanged table. -/
theorem C8_idempotent (body : JSV) (f : Option RulesData) (r1 r2 : Response)
    (h : serve [(body, f), (body, f)] = [r1, r2]) : r1 = r2 := by
  simp only [serve, List.map_cons, List.map_nil] at h
  injection h with h1 h2
  injection h2 with h2
  exact h1.symm.trans h2

/-- C8, witness: two identical clay/rice requests produce the same
response object. -/
theorem C8_witness :
    Response.ok { soilType := "clay", crop := "rice", region := JSV.str ""
                , recommendation := recOf demoRule } =
      Response.ok { soilType := "clay", crop := "rice", region := JSV.str ""
                  , recommendation := recOf demoRule } :=
  C8_idempotent (mkBody "clay" "rice" none) (some { rules := some [demoRule] })
    (Response.ok { soilType := "clay", crop := "rice", region := JSV.str ""
                 , recommendation := recOf demoRule })
    (Response.ok { soilType := "clay", crop := "rice", region := JSV.str ""
                 , recommendation := recOf demoRule })
    rfl

/-- C9: the handler is total over arbitrary bodies — a non-object (or
missing, modelled by undefined) body has no fields and yields the 400
response; a parsed table whose rules field is absent or null acts as the
empty rule list; and truthy non-string soilType/crop values are coerced
through String(...) and lowercased instead of raising. -/
theorem C9_total_over_bodies (f : Option RulesData) (body : JSV)
    (hno : ∀ fs, body ≠ JSV.obj fs)
    (v w reg : JSV) (hv : jsTruthy v = true) (hw : jsTruthy w = true)
    (rs : List Rule) (b2 : JSV) :
    handleRecommend body f = .badRequest missingFieldsError ∧
    handleRecommend JSV.undefined f = .badRequest missingFieldsError ∧
    handleRecommend b2 (some { rules := none }) =
      handleRecommend b2 (some { rules := some [] }) ∧
    handleRecommend (JSV.obj [("soilType", v), ("crop", w), ("region", reg)])
        (some { rules := some rs }) =
      afterValidation (toLowerStr (jsToString v)) (toLowerStr (jsToString w)) reg rs := by
  refine ⟨?_, ?_, ?_, ?_⟩
  · exact handleRecommend_invalid body f
      (Or.inl (by rw [bodyProp_of_not_obj body _ hno]; rfl))
  · exact handleRecommend_invalid JSV.undefined f (Or.inl rfl)
  · rfl
  · have h1 : bodyProp (JSV.obj [("soilType", v), ("crop", w), ("region", reg)])
        "soilType" = v := rfl
    have h2 : bodyProp (JSV.obj [("soilType", v), ("crop", w), ("region", reg)])
        "crop" = w := rfl
    have h3 : bodyProp (JSV.obj [("soilType", v), ("crop", w), ("region", reg)])
        "region" = reg := rfl
    simp only [handleRecommend, afterValidation, recOf, h1, h2, h3, hv, hw,
      Bool.not_true, Bool.or_self, loadRules]
    rfl

/-- C9, witness: a numeric body yields the 400; a numeric soilType 7 is
coerced to the string 7 and lowercased. -/
theorem C9_witness :
    handleRecommend (JSV.num 5) none = .badRequest missingFieldsError ∧
    handleRecommend JSV.undefined none = .badRequest missingFieldsError ∧
    handleRecommend (mkBody "x" "y" none) (some { rules := none }) =
      handleRecommend (mkBody "x" "y" none) (some { rules := some [] }) ∧
    handleRecommend (JSV.obj [("soilType", JSV.num 7), ("crop", JSV.str "rice"),
        ("region", JSV.null)]) (some { rules := some [demoRule] }) =
      afterValidation (toLowerStr (jsToString (JSV.num 7)))
        (toLowerStr (jsToString (JSV.str "rice"))) JSV.null [demoRule] :=
  C9_total_over_bodies none (JSV.num 5) (fun _ h => JSV.noConfusion h)
    (JSV.num 7) (JSV.str "rice") JSV.null rfl rfl [demoRule] (mkBody "x" "y" none)

/-- C10: on a matched rule the response notes is null exactly when the
rule's notes is falsy — absent/null (none) or the empty string — and in
particular an empty-string notes comes back as null, not verbatim. -/
theorem C10_notes_null_iff_falsy (rs : List Rule) (soil crop : String)
    (reg : Option String) (r : Rule) (hs : soil ≠ "") (hc : crop ≠ "")
    (hfind : rs.find? (ruleMatches (toLowerStr soil) (toLowerStr crop)) = some r) :
    handleRecommend (mkBody soil crop reg) (some { rules := some rs }) =
      Response.ok { soilType := toLowerStr soil, crop := toLowerStr crop
                  , region := .str (reg.getD ""), recommendation := recOf r } ∧
    ((recOf r).notes = none ↔ (r.notes = none ∨ r.notes = some "")) ∧
    (r.notes = some "" → (recOf r).notes = none) := by
  refine ⟨?_, ?_, ?_⟩
  · rw [handleRecommend_valid soil crop reg _ hs hc]
    simp [loadRules, hfind]
  · cases hn : r.notes with
    | none => simp [recOf, notesOut, hn]
    | some s => by_cases h : s = "" <;> simp [recOf, notesOut, hn, h]
  · intro h
    simp [recOf, notesOut, h]

/-- C10, witness: a rule carrying empty-string notes produces notes null
in the response. -/
theorem C10_witness :
    handleRecommend (mkBody "clay" "rice" none)
        (some { rules := some [emptyNotesRule] }) =
      Response.ok { soilType := toLowerStr "clay", crop := toLowerStr "rice"
                  , region := .str ((none : Option String).getD "")
                  , recommendation := recOf emptyNotesRule } ∧
    ((recOf emptyNotesRule).notes = none ↔
      (emptyNotesRule.notes = none ∨ emptyNotesRule.notes = some "")) ∧
    (emptyNotesRule.notes = some "" → (recOf emptyNotesRule).notes = none) :=
  C10_notes_null_iff_falsy [emptyNotesRule] "clay" "rice" none emptyNotesRule
    (by decide) (by decide) (by decide)

end YFF
